import Mathlib

/-!
Verification of the ppci debugging subsystem specification.

The repository's tests (`test/test_dbg.py`) exercise the debugger core,
the GDB remote-serial-protocol driver, the debug-info model and the
debug-info linker.  The implementation modules themselves
(`ppci/binutils/dbg.py`, `ppci/binutils/debuginfo.py`, the linker) are not
part of the given sources, so the definitions below are modelled from the
specification's description of each component and checked against the
behaviours the tests pin down.
-/

namespace Ppci

/-- Modelled from the spec: the `ProtocolError` taxonomy of the remote
protocol driver (`ppci/binutils/dbg.py` is not in the source tree, only its
tests).  A checksum mismatch or malformed packet is surfaced to the caller,
never silently retried. -/
inductive ProtocolError where
  | checksumMismatch
  | malformed
  deriving DecidableEq

/-- Render a value `0 ≤ n < 16` as a lowercase hexadecimal digit. -/
def hexDigitChar (n : Nat) : Char :=
  if n < 10 then Char.ofNat (48 + n) else Char.ofNat (87 + n)

/-- Checksum of a payload: the low 8 bits of the sum of its byte values. -/
def checksum (payload : List Char) : Nat :=
  (payload.map Char.toNat).sum % 256

/-- Modelled from the spec: `GdbDebugDriver.rsp_pack` — frame a payload as
`$` + payload + `#` + two lowercase hex digits of the checksum. -/
def rsp_pack (payload : String) : String :=
  let c := checksum payload.toList
  "$" ++ payload ++ "#" ++ String.mk [hexDigitChar (c / 16), hexDigitChar (c % 16)]

/-- Value of a single hexadecimal digit character, if it is one. -/
def hexVal (c : Char) : Option Nat :=
  if 48 ≤ c.toNat ∧ c.toNat ≤ 57 then some (c.toNat - 48)
  else if 97 ≤ c.toNat ∧ c.toNat ≤ 102 then some (c.toNat - 87)
  else if 65 ≤ c.toNat ∧ c.toNat ≤ 70 then some (c.toNat - 55)
  else none

/-- Modelled from the spec: `GdbDebugDriver.rsp_unpack` — positional parse
of a packet `$payload#hh`; fails with a `ProtocolError` when the two-digit
checksum does not match the payload. -/
def rsp_unpack (pkt : String) : Except ProtocolError String :=
  match pkt.toList.reverse with
  | c2 :: c1 :: h :: restRev =>
    if h = '#' then
      match restRev.reverse with
      | d :: payload =>
        if d = '$' then
          match hexVal c1, hexVal c2 with
          | some h1, some h2 =>
            if h1 * 16 + h2 = checksum payload then .ok (String.mk payload)
            else .error .checksumMismatch
          | _, _ => .error .malformed
        else .error .malformed
      | _ => .error .malformed
    else .error .malformed
  | _ => .error .malformed

instance {ε α : Type} [DecidableEq ε] [DecidableEq α] : DecidableEq (Except ε α)
  | .ok x, .ok y => decidable_of_iff (x = y) (by simp)
  | .ok _, .error _ => .isFalse (by simp)
  | .error _, .ok _ => .isFalse (by simp)
  | .error x, .error y => decidable_of_iff (x = y) (by simp)

/-- C2: `pack(payload)` is `"$" + payload + "#"` followed by the low 8 bits of
the sum of the payload's byte values rendered as two lowercase hex digits;
in particular `pack("abc") = "$abc#26"`. -/
theorem rsp_pack_spec :
    (∀ payload : String, rsp_pack payload =
        "$" ++ payload ++ "#" ++
          String.mk [hexDigitChar (checksum payload.toList / 16),
                     hexDigitChar (checksum payload.toList % 16)]) ∧
    (∀ n : Fin 16, hexDigitChar n.val ∈ "0123456789abcdef".toList) ∧
    rsp_pack "abc" = "$abc#26" := by
  refine ⟨fun payload => rfl, by decide, by decide⟩

/-- C3: `unpack("$abc#26") = "abc"`, a packet with one corrupted payload byte
fails, and in general every well-formed packet whose two-hex-digit checksum
does not equal the sum of its payload bytes modulo 256 fails with a
`ProtocolError` rather than returning a payload. -/
theorem rsp_unpack_spec :
    rsp_unpack "$abc#26" = .ok "abc" ∧
    rsp_unpack "$abd#26" = .error .checksumMismatch ∧
    ∀ (payload : List Char) (c1 c2 : Char) (h1 h2 : Nat),
      hexVal c1 = some h1 → hexVal c2 = some h2 →
      h1 * 16 + h2 ≠ checksum payload →
      rsp_unpack (String.mk ('$' :: payload ++ ['#', c1, c2])) =
        .error .checksumMismatch := by
  refine ⟨by decide, by decide, fun payload c1 c2 h1 h2 e1 e2 hne => ?_⟩
  have hrev : (String.mk ('$' :: payload ++ ['#', c1, c2])).toList.reverse
      = c2 :: c1 :: '#' :: (payload.reverse ++ ['$']) := by
    simp
  unfold rsp_unpack
  rw [hrev]
  simp [e1, e2, hne]

/-- Witness for C3: the corrupted packet `$abc#27` (checksum 0x27 instead of
0x26) is rejected with a checksum mismatch. -/
theorem rsp_unpack_spec_witness :
    rsp_unpack (String.mk ('$' :: ['a', 'b', 'c'] ++ ['#', '2', '7'])) =
      .error .checksumMismatch :=
  rsp_unpack_spec.2.2 ['a', 'b', 'c'] '2' '7' 2 7 (by decide) (by decide)
    (by decide)

/-- Modelled from the spec: the scan loop of `GdbDebugDriver.readpkt`,
discarding every byte of the stream before the next `$` (byte 0x24). -/
def skipToDollar : List Nat → Option (List Nat)
  | [] => none
  | b :: rest => if b = 36 then some rest else skipToDollar rest

/-- Modelled from the spec: the collect loop of `readpkt`, gathering payload
bytes until the `#` terminator (byte 0x23). -/
def collectPayload : List Nat → Option (List Nat × List Nat)
  | [] => none
  | b :: rest =>
    if b = 35 then some ([], rest)
    else
      match collectPayload rest with
      | some (p, r) => some (b :: p, r)
      | none => none

/-- Modelled from the spec: `GdbDebugDriver.readpkt` — scan the incoming byte
stream one byte at a time, discard everything before `$`, collect the payload
up to `#` plus two checksum bytes, verify the checksum and return the
unpacked payload. -/
def readpkt (stream : List Nat) : Except ProtocolError String :=
  match skipToDollar stream with
  | none => .error .malformed
  | some r1 =>
    match collectPayload r1 with
    | none => .error .malformed
    | some (pl, r2) =>
      match r2 with
      | b1 :: b2 :: _ =>
        match hexVal (Char.ofNat b1), hexVal (Char.ofNat b2) with
        | some h1, some h2 =>
          if h1 * 16 + h2 = pl.sum % 256 then
            .ok (String.mk (pl.map Char.ofNat))
          else .error .checksumMismatch
        | _, _ => .error .malformed
      | _ => .error .malformed

theorem skipToDollar_append (noise rest : List Nat)
    (h : ∀ b ∈ noise, b ≠ 36) :
    skipToDollar (noise ++ 36 :: rest) = some rest := by
  induction noise with
  | nil => simp [skipToDollar]
  | cons b bs ih =>
    have hb : b ≠ 36 := h b (List.mem_cons_self b bs)
    simp only [List.cons_append, skipToDollar, if_neg hb]
    exact ih fun x hx => h x (List.mem_cons_of_mem b hx)

theorem collectPayload_append (pl rest : List Nat)
    (h : ∀ b ∈ pl, b ≠ 35) :
    collectPayload (pl ++ 35 :: rest) = some (pl, rest) := by
  induction pl with
  | nil => simp [collectPayload]
  | cons b bs ih =>
    have hb : b ≠ 35 := h b (List.mem_cons_self b bs)
    have ihh := ih fun x hx => h x (List.mem_cons_of_mem b hx)
    simp only [List.cons_append, collectPayload, if_neg hb, List.append_eq, ihh]

/-- C4: `read_packet` on a byte stream with arbitrary noise before a valid
packet (for example `b"zzz$abc#26hhh"`) discards every byte before `$`,
collects the payload up to `#` plus two checksum bytes, and returns the
unpacked payload without erroring on the leading or trailing noise. -/
theorem readpkt_spec :
    readpkt [122, 122, 122, 36, 97, 98, 99, 35, 50, 54, 104, 104, 104] =
      .ok "abc" ∧
    ∀ (noise payload trailing : List Nat) (b1 b2 h1 h2 : Nat),
      (∀ b ∈ noise, b ≠ 36) → (∀ b ∈ payload, b ≠ 35) →
      hexVal (Char.ofNat b1) = some h1 → hexVal (Char.ofNat b2) = some h2 →
      h1 * 16 + h2 = payload.sum % 256 →
      readpkt (noise ++ (36 :: (payload ++ (35 :: b1 :: b2 :: trailing)))) =
        .ok (String.mk (payload.map Char.ofNat)) := by
  refine ⟨by decide, fun noise payload trailing b1 b2 h1 h2 hn hp e1 e2 hc => ?_⟩
  unfold readpkt
  rw [skipToDollar_append _ _ hn]
  simp [collectPayload_append _ _ hp, e1, e2, hc]

/-- Witness for C4: the stream `b"zzz$abc#26hhh"` given byte by byte yields
payload `"abc"`. -/
theorem readpkt_spec_witness :
    readpkt ([122, 122, 122] ++
        (36 :: ([97, 98, 99] ++ (35 :: 50 :: 54 :: [104, 104, 104])))) =
      .ok (String.mk ([97, 98, 99].map Char.ofNat)) :=
  readpkt_spec.2 [122, 122, 122] [97, 98, 99] [104, 104, 104] 50 54 2 6
    (by decide) (by decide) (by decide) (by decide) (by decide)

/-- Modelled from the spec: a `DebugAddress` is a section identifier plus a
byte offset within that section; identity is structural
(`ppci/binutils/debuginfo.py` is not in the source tree, only its tests). -/
structure DebugAddress where
  sectionName : String
  offset : Nat
  deriving DecidableEq

/-- Modelled from the spec: a `SourceLocation` — file, line, column and byte
length of the mapped range. -/
structure SourceLocation where
  filename : String
  row : Nat
  col : Nat
  length : Nat
  deriving DecidableEq

/-- Modelled from the spec: a `DebugLocation` associates a `SourceLocation`
with a `DebugAddress`. -/
structure DebugLocation where
  loc : SourceLocation
  address : DebugAddress
  deriving DecidableEq

/-- Modelled from the spec: storage of a `DebugVariable` — a global
`DebugAddress`, or a frame-relative offset when local. -/
inductive VarStorage where
  | globalAddr (a : DebugAddress)
  | frameOffset (o : Int)
  deriving DecidableEq

/-- Modelled from the spec: a `DebugVariable` — name, type reference (by
name, per the name-table representation of types, §9) and storage. -/
structure DebugVariable where
  name : String
  typ : String
  storage : VarStorage
  deriving DecidableEq

/-- Modelled from the spec: a `DebugFunction` — name, entry address, ordered
local variables and a return type reference. -/
structure DebugFunction where
  name : String
  entry : DebugAddress
  locals : List DebugVariable
  retType : String
  deriving DecidableEq

/-- Modelled from the spec (§3, §9): one named type definition in the
name-table representation of types — struct and pointer variants reference
other types by name, never by inlining, so self-referential definitions are
representable without infinite expansion. -/
inductive DebugTypeDef where
  | base (kind : String) (size : Nat)
  | pointer (target : String)
  | array (elem : String) (len : Nat)
  | struct (fields : List (String × String × Nat)) (size : Nat)
  deriving DecidableEq

/-- Modelled from the spec: `DebugInfo` owns the locations, functions,
variables and named types of one compiled unit (or of the merged program). -/
structure DebugInfo where
  locations : List DebugLocation
  functions : List DebugFunction
  vars : List DebugVariable
  types : List (String × DebugTypeDef)
  deriving DecidableEq

def emptyDebugInfo : DebugInfo := ⟨[], [], [], []⟩

/-- Modelled from the spec: the Debug-Info Linker rewrites every
`DebugAddress` as the input section's final base offset plus the original
offset. -/
def rewriteAddress (baseOf : String → Nat) (a : DebugAddress) : DebugAddress :=
  ⟨a.sectionName, baseOf a.sectionName + a.offset⟩

/-- Address rewriting applied to variable storage: global addresses are
rewritten, frame-relative offsets are untouched. -/
def rewriteStorage (baseOf : String → Nat) : VarStorage → VarStorage
  | .globalAddr a => .globalAddr (rewriteAddress baseOf a)
  | .frameOffset o => .frameOffset o

/-- Address rewriting applied to a whole `DebugInfo`: locations, function
entries and variable addresses are rewritten identically. -/
def rewriteInfo (baseOf : String → Nat) (i : DebugInfo) : DebugInfo where
  locations := i.locations.map fun l =>
    { l with address := rewriteAddress baseOf l.address }
  functions := i.functions.map fun f =>
    { f with entry := rewriteAddress baseOf f.entry,
             locals := f.locals.map fun v =>
               { v with storage := rewriteStorage baseOf v.storage } }
  vars := i.vars.map fun v =>
    { v with storage := rewriteStorage baseOf v.storage }
  types := i.types

/-- Modelled from the spec: merge N (DebugInfo, final-base-offset) pairs into
one `DebugInfo`, rewriting every address and concatenating the entries (name
collisions are preserved as distinct entries; no symbol merging). -/
def linkDebugInfo (objs : List (DebugInfo × (String → Nat))) : DebugInfo where
  locations := (objs.map fun p => (rewriteInfo p.2 p.1).locations).flatten
  functions := (objs.map fun p => (rewriteInfo p.2 p.1).functions).flatten
  vars := (objs.map fun p => (rewriteInfo p.2 p.1).vars).flatten
  types := (objs.map fun p => (rewriteInfo p.2 p.1).types).flatten

/-- Round `n` up to the next multiple of `a` (alignment padding). -/
def alignUp (n a : Nat) : Nat := ((n + a - 1) / a) * a

/-- Sequential placement of input sections into one output section starting
at `pos`: each next section starts at the previous end rounded up to the
alignment `a`. -/
def sectionBasesFrom (a pos : Nat) : List Nat → List Nat
  | [] => []
  | len :: rest => pos :: sectionBasesFrom a (alignUp (pos + len) a) rest

/-- Final base offsets of input sections placed sequentially with alignment
`a`, starting at offset 0. -/
def sectionBases (a : Nat) (lens : List Nat) : List Nat :=
  sectionBasesFrom a 0 lens

/-- The second object of the link test: a `DebugInfo` holding one
`DebugLocation` for `a.txt:1:1` (length 22) at offset 5 of the `code`
section. -/
def linkTestInfo2 : DebugInfo :=
  ⟨[⟨⟨"a.txt", 1, 1, 22⟩, ⟨"code", 5⟩⟩], [], [], []⟩

/-- C1: placing two 59-byte code sections with 4-byte alignment puts the
second at final base offset 60, so a `DebugLocation` at offset 5 of the
second object's code section is rewritten to offset 60 + 5 = 65; in general
every rewritten `DebugAddress` offset is the input section's final base
offset plus the original offset. -/
theorem link_offset_spec :
    sectionBases 4 [59, 59] = [0, 60] ∧
    (linkDebugInfo
        [(emptyDebugInfo, fun _ => 0),
         (linkTestInfo2, fun _ => 60)]).locations.map
      (fun l => l.address.offset) = [65] ∧
    ∀ (baseOf : String → Nat) (a : DebugAddress),
      (rewriteAddress baseOf a).offset = baseOf a.sectionName + a.offset :=
  ⟨by decide, by decide, fun baseOf a => rfl⟩

/-- A token of the serialized debug-info text.  The spec fixes only that the
encoding is deterministic, versioned and round-trippable (§6, §8) and leaves
the exact textual grammar as an implementation choice; it is modelled as a
stream of number and string tokens. -/
inductive Tok where
  | nat (n : Nat)
  | int (i : Int)
  | str (s : String)
  deriving DecidableEq

def serAddress (a : DebugAddress) : List Tok :=
  [Tok.str a.sectionName, Tok.nat a.offset]

def serSrcLoc (l : SourceLocation) : List Tok :=
  [Tok.str l.filename, Tok.nat l.row, Tok.nat l.col, Tok.nat l.length]

def serLocation (l : DebugLocation) : List Tok :=
  serSrcLoc l.loc ++ serAddress l.address

def serStorage : VarStorage → List Tok
  | .globalAddr a => Tok.nat 0 :: serAddress a
  | .frameOffset o => [Tok.nat 1, Tok.int o]

def serVariable (v : DebugVariable) : List Tok :=
  Tok.str v.name :: Tok.str v.typ :: serStorage v.storage

/-- Length-prefixed encoding of a list of entries. -/
def serList {α : Type} (f : α → List Tok) (xs : List α) : List Tok :=
  Tok.nat xs.length :: (xs.map f).flatten

def serFunction (f : DebugFunction) : List Tok :=
  Tok.str f.name :: (serAddress f.entry ++
    (serList serVariable f.locals ++ [Tok.str f.retType]))

def serField (f : String × String × Nat) : List Tok :=
  [Tok.str f.1, Tok.str f.2.1, Tok.nat f.2.2]

/-- Serialization of one type definition.  Pointer, array and struct entries
carry their referenced types as names (never inlined), so serialization of a
self-referential struct terminates. -/
def serTypeDef : DebugTypeDef → List Tok
  | .base kind size => [Tok.nat 0, Tok.str kind, Tok.nat size]
  | .pointer t => [Tok.nat 1, Tok.str t]
  | .array e l => [Tok.nat 2, Tok.str e, Tok.nat l]
  | .struct fields size => Tok.nat 3 :: (serList serField fields ++ [Tok.nat size])

def serNamedType (p : String × DebugTypeDef) : List Tok :=
  Tok.str p.1 :: serTypeDef p.2

/-- Modelled from the spec: `debuginfo.serialize` — a deterministic,
versioned encoding listing locations, functions, variables and types. -/
def serialize (i : DebugInfo) : List Tok :=
  Tok.str "ppci-dbg-1" :: (serList serLocation i.locations ++
    (serList serFunction i.functions ++
      (serList serVariable i.vars ++ serList serNamedType i.types)))

def parseNat : List Tok → Option (Nat × List Tok)
  | Tok.nat n :: ts => some (n, ts)
  | _ => none

def parseInt : List Tok → Option (Int × List Tok)
  | Tok.int i :: ts => some (i, ts)
  | _ => none

def parseStr : List Tok → Option (String × List Tok)
  | Tok.str s :: ts => some (s, ts)
  | _ => none

def parseAddress (ts : List Tok) : Option (DebugAddress × List Tok) :=
  match parseStr ts with
  | some (s, ts1) =>
    match parseNat ts1 with
    | some (o, ts2) => some (⟨s, o⟩, ts2)
    | none => none
  | none => none

def parseSrcLoc (ts : List Tok) : Option (SourceLocation × List Tok) :=
  match parseStr ts with
  | some (f, ts1) =>
    match parseNat ts1 with
    | some (r, ts2) =>
      match parseNat ts2 with
      | some (c, ts3) =>
        match parseNat ts3 with
        | some (l, ts4) => some (⟨f, r, c, l⟩, ts4)
        | none => none
      | none => none
    | none => none
  | none => none

def parseLocation (ts : List Tok) : Option (DebugLocation × List Tok) :=
  match parseSrcLoc ts with
  | some (l, ts1) =>
    match parseAddress ts1 with
    | some (a, ts2) => some (⟨l, a⟩, ts2)
    | none => none
  | none => none

def parseStorage (ts : List Tok) : Option (VarStorage × List Tok) :=
  match parseNat ts with
  | some (0, ts1) =>
    match parseAddress ts1 with
    | some (a, ts2) => some (.globalAddr a, ts2)
    | none => none
  | some (1, ts1) =>
    match parseInt ts1 with
    | some (o, ts2) => some (.frameOffset o, ts2)
    | none => none
  | _ => none

def parseVariable (ts : List Tok) : Option (DebugVariable × List Tok) :=
  match parseStr ts with
  | some (n, ts1) =>
    match parseStr ts1 with
    | some (t, ts2) =>
      match parseStorage ts2 with
      | some (s, ts3) => some (⟨n, t, s⟩, ts3)
      | none => none
    | none => none
  | none => none

def parseCount {α : Type} (p : List Tok → Option (α × List Tok)) :
    Nat → List Tok → Option (List α × List Tok)
  | 0, ts => some ([], ts)
  | n + 1, ts =>
    match p ts with
    | some (a, ts1) =>
      match parseCount p n ts1 with
      | some (as, ts2) => some (a :: as, ts2)
      | none => none
    | none => none

def parseListP {α : Type} (p : List Tok → Option (α × List Tok))
    (ts : List Tok) : Option (List α × List Tok) :=
  match parseNat ts with
  | some (n, ts1) => parseCount p n ts1
  | none => none

def parseFunction (ts : List Tok) : Option (DebugFunction × List Tok) :=
  match parseStr ts with
  | some (n, ts1) =>
    match parseAddress ts1 with
    | some (e, ts2) =>
      match parseListP parseVariable ts2 with
      | some (ls, ts3) =>
        match parseStr ts3 with
        | some (rt, ts4) => some (⟨n, e, ls, rt⟩, ts4)
        | none => none
      | none => none
    | none => none
  | none => none

def parseField (ts : List Tok) : Option ((String × String × Nat) × List Tok) :=
  match parseStr ts with
  | some (a, ts1) =>
    match parseStr ts1 with
    | some (b, ts2) =>
      match parseNat ts2 with
      | some (c, ts3) => some ((a, b, c), ts3)
      | none => none
    | none => none
  | none => none

def parseTypeDef (ts : List Tok) : Option (DebugTypeDef × List Tok) :=
  match parseNat ts with
  | some (0, ts1) =>
    match parseStr ts1 with
    | some (k, ts2) =>
      match parseNat ts2 with
      | some (s, ts3) => some (.base k s, ts3)
      | none => none
    | none => none
  | some (1, ts1) =>
    match parseStr ts1 with
    | some (t, ts2) => some (.pointer t, ts2)
    | none => none
  | some (2, ts1) =>
    match parseStr ts1 with
    | some (e, ts2) =>
      match parseNat ts2 with
      | some (l, ts3) => some (.array e l, ts3)
      | none => none
    | none => none
  | some (3, ts1) =>
    match parseListP parseField ts1 with
    | some (fs, ts2) =>
      match parseNat ts2 with
      | some (s, ts3) => some (.struct fs s, ts3)
      | none => none
    | none => none
  | _ => none

def parseNamedType (ts : List Tok) : Option ((String × DebugTypeDef) × List Tok) :=
  match parseStr ts with
  | some (n, ts1) =>
    match parseTypeDef ts1 with
    | some (t, ts2) => some ((n, t), ts2)
    | none => none
  | none => none

/-- Modelled from the spec: `debuginfo.deserialize` — re-parse the versioned
encoding back into a `DebugInfo`; every token must be consumed. -/
def deserialize (ts : List Tok) : Option DebugInfo :=
  match parseStr ts with
  | some (v, ts1) =>
    if v = "ppci-dbg-1" then
      match parseListP parseLocation ts1 with
      | some (ls, ts2) =>
        match parseListP parseFunction ts2 with
        | some (fs, ts3) =>
          match parseListP parseVariable ts3 with
          | some (vs, ts4) =>
            match parseListP parseNamedType ts4 with
            | some (tys, ts5) =>
              match ts5 with
              | [] => some ⟨ls, fs, vs, tys⟩
              | _ => none
            | none => none
          | none => none
        | none => none
      | none => none
    else none
  | none => none

theorem parseAddress_append (a : DebugAddress) (r : List Tok) :
    parseAddress (serAddress a ++ r) = some (a, r) := rfl

theorem parseSrcLoc_append (l : SourceLocation) (r : List Tok) :
    parseSrcLoc (serSrcLoc l ++ r) = some (l, r) := rfl

theorem parseLocation_append (l : DebugLocation) (r : List Tok) :
    parseLocation (serLocation l ++ r) = some (l, r) := by
  simp [serLocation, parseLocation, List.append_assoc, parseSrcLoc_append,
    parseAddress_append]

theorem parseStorage_append (s : VarStorage) (r : List Tok) :
    parseStorage (serStorage s ++ r) = some (s, r) := by
  cases s <;> rfl

theorem parseVariable_append (v : DebugVariable) (r : List Tok) :
    parseVariable (serVariable v ++ r) = some (v, r) := by
  simp [serVariable, parseVariable, parseStr, parseStorage_append]

theorem parseCount_append {α : Type} (p : List Tok → Option (α × List Tok))
    (f : α → List Tok) (hp : ∀ a r, p (f a ++ r) = some (a, r)) :
    ∀ (xs : List α) (r : List Tok),
      parseCount p xs.length ((xs.map f).flatten ++ r) = some (xs, r) := by
  intro xs
  induction xs with
  | nil => intro r; simp [parseCount]
  | cons a as ih =>
    intro r
    simp only [List.map_cons, List.flatten_cons, List.length_cons,
      List.append_assoc, parseCount, hp a _, ih]

theorem parseListP_append {α : Type} (p : List Tok → Option (α × List Tok))
    (f : α → List Tok) (hp : ∀ a r, p (f a ++ r) = some (a, r))
    (xs : List α) (r : List Tok) :
    parseListP p (serList f xs ++ r) = some (xs, r) := by
  simp only [serList, List.cons_append, parseListP, parseNat,
    parseCount_append p f hp xs r]

theorem parseListP_nil {α : Type} (p : List Tok → Option (α × List Tok))
    (f : α → List Tok) (hp : ∀ a r, p (f a ++ r) = some (a, r))
    (xs : List α) :
    parseListP p (serList f xs) = some (xs, []) := by
  have h := parseListP_append p f hp xs []
  simpa using h

theorem parseFunction_append (f : DebugFunction) (r : List Tok) :
    parseFunction (serFunction f ++ r) = some (f, r) := by
  simp [serFunction, parseFunction, parseStr, List.append_assoc,
    parseAddress_append,
    parseListP_append parseVariable serVariable parseVariable_append]

theorem parseField_append (f : String × String × Nat) (r : List Tok) :
    parseField (serField f ++ r) = some (f, r) := rfl

theorem parseTypeDef_append (t : DebugTypeDef) (r : List Tok) :
    parseTypeDef (serTypeDef t ++ r) = some (t, r) := by
  cases t with
  | base kind size => rfl
  | pointer tgt => rfl
  | array e l => rfl
  | struct fields size =>
    simp [serTypeDef, parseTypeDef, parseNat, List.append_assoc,
      parseListP_append parseField serField parseField_append]

theorem parseNamedType_append (p : String × DebugTypeDef) (r : List Tok) :
    parseNamedType (serNamedType p ++ r) = some (p, r) := by
  simp [serNamedType, parseNamedType, parseStr, parseTypeDef_append]

/-- A `DebugInfo` holding the self-referential linked-list node type of the
recursive-types test: `node_t` is a struct whose `next` field points to
`node_t` itself, referenced by name. -/
def nodeTypeInfo : DebugInfo :=
  ⟨[], [],
   [⟨"root", "node_t*", .globalAddr ⟨"data", 0⟩⟩],
   [("node_t", .struct [("payload", "int", 0), ("next", "node_t*", 4)] 8),
    ("node_t*", .pointer "node_t")]⟩

/-- C9: for every constructed `DebugInfo` — including one containing a
self-referential struct type, which serializes by name reference and so
terminates — deserializing the serialization gives back a structurally equal
`DebugInfo`. -/
theorem serialize_round_trip :
    (∀ x : DebugInfo, deserialize (serialize x) = some x) ∧
    deserialize (serialize nodeTypeInfo) = some nodeTypeInfo := by
  have main : ∀ x : DebugInfo, deserialize (serialize x) = some x := by
    intro x
    simp [serialize, deserialize, parseStr,
      parseListP_append parseLocation serLocation parseLocation_append,
      parseListP_append parseFunction serFunction parseFunction_append,
      parseListP_append parseVariable serVariable parseVariable_append,
      parseListP_nil parseNamedType serNamedType parseNamedType_append]
  exact ⟨main, main nodeTypeInfo⟩

/-- Modelled from the spec: the resolved, structural view of a type as used
by the expression evaluator (type references are resolved lazily by name at
query time; the evaluator works on the resolved form). -/
inductive DbgType where
  | int
  | ptr (tgt : DbgType)
  | arr (elem : DbgType) (len : Nat)
  | struc (fields : List (String × DbgType × Nat)) (size : Nat)

/-- Storage size in bytes of a resolved type (32-bit target: `int` and
pointers are 4 bytes wide). -/
def sizeOfType : DbgType → Nat
  | .int => 4
  | .ptr _ => 4
  | .arr e n => n * sizeOfType e
  | .struc _ s => s

/-- Whether a type is an aggregate (array or struct): aggregates are never
materializable as evaluator values. -/
def isAggregate : DbgType → Bool
  | .arr _ _ => true
  | .struc _ _ => true
  | _ => false

/-- Modelled from the spec: the `SymbolError` taxonomy of the evaluator —
undefined identifier (naming it), aggregate-value read, type mismatch. -/
inductive SymbolError where
  | undefined (name : String)
  | aggregateRead
  | typeMismatch
  deriving DecidableEq

/-- An evaluator failure: either the expression does not parse, or a
`SymbolError` during evaluation. -/
inductive DbgError where
  | parseFail
  | symbol (e : SymbolError)
  deriving DecidableEq

inductive UnOp where
  | pos
  | neg
  | addrOf
  | deref
  deriving DecidableEq

inductive BinOp where
  | add
  | sub
  | mul
  deriving DecidableEq

/-- The evaluator's expression language: literals, identifiers, unary and
binary operators, indexing and field access. -/
inductive Expr where
  | num (n : Int)
  | ident (s : String)
  | unop (op : UnOp) (e : Expr)
  | binop (op : BinOp) (a b : Expr)
  | index (a i : Expr)
  | field (a : Expr) (f : String)
  deriving DecidableEq

/-- Evaluation context: global and current-frame local symbol tables (name,
resolved type, resolved address) and the target memory as seen through the
driver — `readMem addr size` is the integer read at `addr`. -/
structure EvalCtx where
  globals : List (String × DbgType × Nat)
  locals : List (String × DbgType × Nat)
  readMem : Nat → Nat → Int

/-- Look up a name in one symbol table. -/
def lookupVar (table : List (String × DbgType × Nat)) (n : String) :
    Option (DbgType × Nat) :=
  match table.find? (fun p => p.1 == n) with
  | some p => some p.2
  | none => none

/-- An intermediate evaluator value: a loaded rvalue, or an addressable
lvalue (address plus type) not yet read from the target. -/
inductive EvalV where
  | rval (v : Int) (t : DbgType)
  | lval (addr : Nat) (t : DbgType)

/-- Materialize a value: an lvalue of aggregate type is rejected with the
"cannot read aggregate value" condition; scalar and pointer lvalues are read
from target memory. -/
def load (ctx : EvalCtx) : EvalV → Except SymbolError (Int × DbgType)
  | .rval v t => .ok (v, t)
  | .lval a t =>
    if isAggregate t then .error .aggregateRead
    else .ok (ctx.readMem a (sizeOfType t), t)

def applyBin : BinOp → Int → Int → Int
  | .add, a, b => a + b
  | .sub, a, b => a - b
  | .mul, a, b => a * b

/-- Modelled from the spec: the expression evaluator.  Identifiers resolve
through the current frame's locals first, then the globals, else fail with
an undefined-symbol condition naming the identifier.  `&` requires an
addressable lvalue, `*` a pointer-typed value (the read at the resulting
address is attempted whatever the address, including 0), `[]` an array
lvalue or pointer value, `.` a struct lvalue. -/
def evalE (ctx : EvalCtx) : Expr → Except SymbolError EvalV
  | .num n => .ok (.rval n .int)
  | .ident s =>
    match lookupVar ctx.locals s with
    | some (t, a) => .ok (.lval a t)
    | none =>
      match lookupVar ctx.globals s with
      | some (t, a) => .ok (.lval a t)
      | none => .error (.undefined s)
  | .unop .pos e => do
    let v ← evalE ctx e
    let (x, t) ← load ctx v
    .ok (.rval x t)
  | .unop .neg e => do
    let v ← evalE ctx e
    let (x, t) ← load ctx v
    .ok (.rval (-x) t)
  | .unop .addrOf e => do
    let v ← evalE ctx e
    match v with
    | .lval a t => .ok (.rval a (.ptr t))
    | .rval _ _ => .error .typeMismatch
  | .unop .deref e => do
    let v ← evalE ctx e
    let (x, t) ← load ctx v
    match t with
    | .ptr tgt => .ok (.lval x.toNat tgt)
    | _ => .error .typeMismatch
  | .binop op a b => do
    let va ← evalE ctx a
    let (xa, _) ← load ctx va
    let vb ← evalE ctx b
    let (xb, _) ← load ctx vb
    .ok (.rval (applyBin op xa xb) .int)
  | .index a i => do
    let av ← evalE ctx a
    let iv ← evalE ctx i
    let (xi, _) ← load ctx iv
    match av with
    | .lval addr (.arr et _) =>
      .ok (.lval (addr + xi.toNat * sizeOfType et) et)
    | av2 => do
      let (x, t) ← load ctx av2
      match t with
      | .ptr et => .ok (.lval (x.toNat + xi.toNat * sizeOfType et) et)
      | _ => .error .typeMismatch
  | .field a f => do
    let av ← evalE ctx a
    match av with
    | .lval addr (.struc fields _) =>
      match fields.find? (fun p => p.1 == f) with
      | some (_, ft, off) => .ok (.lval (addr + off) ft)
      | none => .error .typeMismatch
    | _ => .error .typeMismatch

/-- Evaluate an expression and materialize the result: only scalar and
pointer results are returned; bare aggregates are rejected by `load`. -/
def evalLoaded (ctx : EvalCtx) (e : Expr) : Except SymbolError Int := do
  let v ← evalE ctx e
  let (x, _) ← load ctx v
  .ok x

inductive CTok where
  | num (n : Int)
  | ident (s : String)
  | plus
  | minus
  | star
  | amp
  | lparen
  | rparen
  | lbrack
  | rbrack
  | dot
  deriving DecidableEq

def isDigitC (c : Char) : Bool := 48 ≤ c.toNat && c.toNat ≤ 57

def isAlphaC (c : Char) : Bool :=
  (65 ≤ c.toNat && c.toNat ≤ 90) || (97 ≤ c.toNat && c.toNat ≤ 122) || c = '_'

def isIdentC (c : Char) : Bool := isAlphaC c || isDigitC c

def isHexC (c : Char) : Bool := (hexVal c).isSome

def decToNat (ds : List Char) : Nat :=
  ds.foldl (fun acc c => acc * 10 + (c.toNat - 48)) 0

def hexToNat (ds : List Char) : Nat :=
  ds.foldl (fun acc c => acc * 16 + (hexVal c).getD 0) 0

/-- Tokenizer of the evaluator's expression language: identifiers, decimal
and `0x` hexadecimal literals, operators and brackets.  Fuel-driven scan of
the character list. -/
def tokenize : Nat → List Char → Option (List CTok)
  | 0, _ => none
  | _ + 1, [] => some []
  | fuel + 1, c :: cs =>
    if c = ' ' then tokenize fuel cs
    else if c = '+' then (tokenize fuel cs).map (CTok.plus :: ·)
    else if c = '-' then (tokenize fuel cs).map (CTok.minus :: ·)
    else if c = '*' then (tokenize fuel cs).map (CTok.star :: ·)
    else if c = '&' then (tokenize fuel cs).map (CTok.amp :: ·)
    else if c = '(' then (tokenize fuel cs).map (CTok.lparen :: ·)
    else if c = ')' then (tokenize fuel cs).map (CTok.rparen :: ·)
    else if c = '[' then (tokenize fuel cs).map (CTok.lbrack :: ·)
    else if c = ']' then (tokenize fuel cs).map (CTok.rbrack :: ·)
    else if c = '.' then (tokenize fuel cs).map (CTok.dot :: ·)
    else if isDigitC c then
      match c, cs with
      | '0', 'x' :: cs2 =>
        (tokenize fuel (cs2.dropWhile isHexC)).map
          (CTok.num (hexToNat (cs2.takeWhile isHexC)) :: ·)
      | _, _ =>
        (tokenize fuel ((c :: cs).dropWhile isDigitC)).map
          (CTok.num (decToNat ((c :: cs).takeWhile isDigitC)) :: ·)
    else if isAlphaC c then
      (tokenize fuel ((c :: cs).dropWhile isIdentC)).map
        (CTok.ident (String.mk ((c :: cs).takeWhile isIdentC)) :: ·)
    else none

mutual

/-- Additive level of the expression grammar (lowest precedence). -/
def parseAdd : Nat → List CTok → Option (Expr × List CTok)
  | 0, _ => none
  | fuel + 1, ts => do
    let (a, ts1) ← parseMul fuel ts
    parseAddRest fuel a ts1

def parseAddRest : Nat → Expr → List CTok → Option (Expr × List CTok)
  | 0, _, _ => none
  | fuel + 1, acc, CTok.plus :: ts => do
    let (b, ts1) ← parseMul fuel ts
    parseAddRest fuel (Expr.binop .add acc b) ts1
  | fuel + 1, acc, CTok.minus :: ts => do
    let (b, ts1) ← parseMul fuel ts
    parseAddRest fuel (Expr.binop .sub acc b) ts1
  | _ + 1, acc, ts => some (acc, ts)

/-- Multiplicative level of the expression grammar. -/
def parseMul : Nat → List CTok → Option (Expr × List CTok)
  | 0, _ => none
  | fuel + 1, ts => do
    let (a, ts1) ← parseUnary fuel ts
    parseMulRest fuel a ts1

def parseMulRest : Nat → Expr → List CTok → Option (Expr × List CTok)
  | 0, _, _ => none
  | fuel + 1, acc, CTok.star :: ts => do
    let (b, ts1) ← parseUnary fuel ts
    parseMulRest fuel (Expr.binop .mul acc b) ts1
  | _ + 1, acc, ts => some (acc, ts)

/-- Unary operators: `+`, `-`, `&` (address-of), `*` (dereference). -/
def parseUnary : Nat → List CTok → Option (Expr × List CTok)
  | 0, _ => none
  | fuel + 1, CTok.plus :: ts =>
    (parseUnary fuel ts).map fun p => (Expr.unop .pos p.1, p.2)
  | fuel + 1, CTok.minus :: ts =>
    (parseUnary fuel ts).map fun p => (Expr.unop .neg p.1, p.2)
  | fuel + 1, CTok.amp :: ts =>
    (parseUnary fuel ts).map fun p => (Expr.unop .addrOf p.1, p.2)
  | fuel + 1, CTok.star :: ts =>
    (parseUnary fuel ts).map fun p => (Expr.unop .deref p.1, p.2)
  | fuel + 1, ts => parseTrailer fuel ts

/-- Postfix trailers: `[index]` and `.field`, applied to a primary. -/
def parseTrailer : Nat → List CTok → Option (Expr × List CTok)
  | 0, _ => none
  | fuel + 1, ts => do
    let (a, ts1) ← parsePrimary fuel ts
    parseTrailerRest fuel a ts1

def parseTrailerRest : Nat → Expr → List CTok → Option (Expr × List CTok)
  | 0, _, _ => none
  | fuel + 1, acc, CTok.lbrack :: ts => do
    let (i, ts1) ← parseAdd fuel ts
    match ts1 with
    | CTok.rbrack :: ts2 => parseTrailerRest fuel (Expr.index acc i) ts2
    | _ => none
  | fuel + 1, acc, CTok.dot :: CTok.ident f :: ts =>
    parseTrailerRest fuel (Expr.field acc f) ts
  | _ + 1, acc, ts => some (acc, ts)

/-- Primary expressions: literals, identifiers, parenthesized expressions. -/
def parsePrimary : Nat → List CTok → Option (Expr × List CTok)
  | 0, _ => none
  | _ + 1, CTok.num n :: ts => some (Expr.num n, ts)
  | _ + 1, CTok.ident s :: ts => some (Expr.ident s, ts)
  | fuel + 1, CTok.lparen :: ts => do
    let (e, ts1) ← parseAdd fuel ts
    match ts1 with
    | CTok.rparen :: ts2 => some (e, ts2)
    | _ => none
  | _ + 1, _ => none

end

/-- Parse a whole expression string: tokenize, parse the additive level, and
require every token to be consumed. -/
def parseExprFull (s : String) : Option Expr :=
  match tokenize (s.length + 1) s.toList with
  | some ts =>
    match parseAdd ((ts.length + 1) * 8) ts with
    | some (e, []) => some e
    | _ => none
  | none => none

/-- Modelled from the spec: `Debugger.eval_c3_str` — parse a source-language
expression and evaluate it against the loaded symbol tables and the target
memory, producing an integer value or a precise error. -/
def eval_c3_str (ctx : EvalCtx) (s : String) : Except DbgError Int :=
  match parseExprFull s with
  | some e =>
    match evalLoaded ctx e with
    | .ok v => .ok v
    | .error er => .error (.symbol er)
  | none => .error .parseFail

/-- Modelled from the spec: the `DummyDebugDriver` target — every memory
read returns zero (globals are zero-initialized and never written). -/
def dummyReadMem : Nat → Nat → Int := fun _ _ => 0

/-- The symbol tables of the globals test program (`var int Xa;
var int[10] B; var struct{int g;int f;}[10] C; var int* D;`) on a 32-bit
target, with memory supplied by `m`: `Xa` at 8192, `B` at 8196, `C` at 8236,
`D` at 8316. -/
def globalsCtxWith (m : Nat → Nat → Int) : EvalCtx where
  globals := [("Xa", .int, 8192),
              ("B", .arr .int 10, 8196),
              ("C", .arr (.struc [("g", .int, 0), ("f", .int, 4)] 8) 10, 8236),
              ("D", .ptr .int, 8316)]
  locals := []
  readMem := m

/-- The globals test context backed by the dummy driver's zeroed memory. -/
def globalsCtx : EvalCtx := globalsCtxWith dummyReadMem

/-- C5: with a loaded program holding a global integer `Xa` initialized to
0, the evaluator returns 0 for `Xa`, -9 for `Xa + 1 - 10` and 20 for
`(Xa + 1) * 20`, with the usual precedence and parenthesization. -/
theorem eval_globals_spec :
    eval_c3_str globalsCtx "Xa" = .ok 0 ∧
    eval_c3_str globalsCtx "Xa + 1 - 10" = .ok (-9) ∧
    eval_c3_str globalsCtx "(Xa + 1) * 20" = .ok 20 :=
  ⟨by decide, by decide, by decide⟩

/-- C6: a bare array-typed global `B` and a bare struct-typed element
`C[1]` are rejected with the aggregate-read `SymbolError`, while
`B[2] + 22` evaluates to the element value plus 22 and
`C[2].f + 22 + 0xA` evaluates to the field value plus 32, for any target
memory `m`. -/
theorem eval_aggregate_spec :
    eval_c3_str globalsCtx "B" = .error (.symbol .aggregateRead) ∧
    eval_c3_str globalsCtx "C[1]" = .error (.symbol .aggregateRead) ∧
    (∀ m : Nat → Nat → Int,
      eval_c3_str (globalsCtxWith m) "B[2] + 22" = .ok (m 8204 4 + 22)) ∧
    (∀ m : Nat → Nat → Int,
      eval_c3_str (globalsCtxWith m) "C[2].f + 22 + 0xA" =
        .ok (m 8256 4 + 32)) := by
  refine ⟨by decide, by decide, fun m => ?_, fun m => ?_⟩
  · have hp : parseExprFull "B[2] + 22" =
        some (Expr.binop .add (.index (.ident "B") (.num 2)) (.num 22)) := by
      decide
    unfold eval_c3_str
    rw [hp]
    simp [evalLoaded, evalE, load, lookupVar, globalsCtxWith, isAggregate,
      sizeOfType, applyBin, Except.instMonad, Except.bind, List.find?]
  · have hp : parseExprFull "C[2].f + 22 + 0xA" =
        some (Expr.binop .add
          (.binop .add (.field (.index (.ident "C") (.num 2)) "f") (.num 22))
          (.num 10)) := by
      decide
    unfold eval_c3_str
    rw [hp]
    simp [evalLoaded, evalE, load, lookupVar, globalsCtxWith, isAggregate,
      sizeOfType, applyBin, Except.instMonad, Except.bind, List.find?]
    ring

/-- C7: for the zero-initialized global pointer `D`, `D` evaluates to 0;
`*D` raises no type error but reads target memory at address 0 and returns
whatever the target supplies; and `&D`, `+D`, `-D` all succeed. -/
theorem eval_pointer_spec :
    eval_c3_str globalsCtx "D" = .ok 0 ∧
    (∀ m : Nat → Nat → Int, m 8316 4 = 0 →
      eval_c3_str (globalsCtxWith m) "*D" = .ok (m 0 4)) ∧
    eval_c3_str globalsCtx "&D" = .ok 8316 ∧
    eval_c3_str globalsCtx "+D" = .ok 0 ∧
    eval_c3_str globalsCtx "-D" = .ok 0 := by
  refine ⟨by decide, fun m h => ?_, by decide, by decide, by decide⟩
  have hp : parseExprFull "*D" = some (Expr.unop .deref (.ident "D")) := by
    decide
  unfold eval_c3_str
  rw [hp]
  simp [evalLoaded, evalE, load, lookupVar, globalsCtxWith, isAggregate,
    sizeOfType, h, Except.instMonad, Except.bind, List.find?]

/-- Witness for C7: with the dummy driver's zeroed memory, `*D` reads
address 0 and returns the value the target supplies there. -/
theorem eval_pointer_spec_witness :
    eval_c3_str (globalsCtxWith dummyReadMem) "*D" = .ok (dummyReadMem 0 4) :=
  eval_pointer_spec.2.1 dummyReadMem rfl

/-- Target memory of the shadowing test: the global `Xa` cell (address 100)
holds 7, the local `Xa` cell (address 200) holds 42. -/
def shadowMem : Nat → Nat → Int :=
  fun a _ => if a = 100 then 7 else if a = 200 then 42 else 0

/-- Context of the shadowing test: a global `Xa` at address 100 and a
current-frame local also named `Xa` at address 200. -/
def shadowCtx : EvalCtx where
  globals := [("Xa", .int, 100)]
  locals := [("Xa", .int, 200)]
  readMem := shadowMem

/-- C8: an identifier resolves through the current frame's locals first —
with a local `Xa` shadowing a global `Xa`, evaluation returns the local's
value (42), not the global's (7) — and an identifier absent from both
tables fails with an undefined-symbol condition naming it. -/
theorem eval_shadow_spec :
    (∀ (ctx : EvalCtx) (n : String) (t : DbgType) (a : Nat),
      lookupVar ctx.locals n = some (t, a) →
      evalE ctx (Expr.ident n) = .ok (.lval a t)) ∧
    (∀ (ctx : EvalCtx) (n : String),
      lookupVar ctx.locals n = none → lookupVar ctx.globals n = none →
      evalE ctx (Expr.ident n) = .error (.undefined n)) ∧
    eval_c3_str shadowCtx "Xa" = .ok 42 ∧
    eval_c3_str shadowCtx "Baa" = .error (.symbol (.undefined "Baa")) := by
  refine ⟨fun ctx n t a h => ?_, fun ctx n h1 h2 => ?_, by decide, by decide⟩
  · simp [evalE, h]
  · simp [evalE, h1, h2]

/-- Witness for C8: in the shadowing context, the identifier `Xa` resolves
to the local at address 200, and `Baa` is undefined. -/
theorem eval_shadow_spec_witness :
    evalE shadowCtx (Expr.ident "Xa") = .ok (.lval 200 .int) ∧
    evalE shadowCtx (Expr.ident "Baa") = .error (.undefined "Baa") :=
  ⟨eval_shadow_spec.1 shadowCtx "Xa" DbgType.int 200 rfl,
   eval_shadow_spec.2.1 shadowCtx "Baa" rfl rfl⟩

/-- Modelled from the spec: the Debugger Core's execution state. -/
inductive RunState where
  | idle
  | running
  | stopped
  deriving DecidableEq

/-- Modelled from the spec: the Debugger Core's own state — execution state,
the optionally loaded merged `DebugInfo`, and the breakpoint table keyed by
address.  The driver connection holds no further core-visible state. -/
structure Debugger where
  runState : RunState
  symbols : Option DebugInfo
  breakpoints : List DebugAddress
  deriving DecidableEq

/-- A freshly constructed debugger with a driver attached: idle, no debug
information loaded, empty breakpoint table. -/
def newDebugger : Debugger := ⟨.idle, none, []⟩

/-- Modelled from the spec: `Debugger.stop` delegates to the driver (the
dummy driver's stop always succeeds) and records the stopped state; it does
not consult the loaded symbols. -/
def Debugger.stop (d : Debugger) : Except DbgError Debugger :=
  .ok { d with runState := .stopped }

/-- Modelled from the spec: `Debugger.step` delegates a single step to the
driver, then records the stop event when the step completes; it does not
consult the loaded symbols. -/
def Debugger.step (d : Debugger) : Except DbgError Debugger :=
  .ok { d with runState := .stopped }

/-- C10: on a freshly constructed `Debugger` with a driver attached but no
debug information loaded, `stop()` and `step()` complete without error —
`load_symbols` is not a precondition of the execution-control operations. -/
theorem fresh_debugger_stop_step_spec :
    newDebugger.symbols = none ∧
    (∃ d2 : Debugger, newDebugger.stop = .ok d2) ∧
    (∃ d2 : Debugger, newDebugger.step = .ok d2) :=
  ⟨rfl, ⟨{ newDebugger with runState := .stopped }, rfl⟩,
   ⟨{ newDebugger with runState := .stopped }, rfl⟩⟩

end Ppci
